import Mathlib

/-!
Shallow embedding of `sdk/include/locks.hh`: the `FlagLock`, `TicketLock`,
`NoLock` and `LockGuard` primitives of the CHERIoT RTOS locking header.

Machine integers (the `uint32_t` futex words and ticket counters) are
modelled as `Nat` with explicit reduction modulo `2^32` where the source
can overflow.  Interference from other threads on the shared atomic words
is modelled by an explicit environment: a list of oracle entries giving
the value found in the word at each atomic access, and the number of
ticks each call into the word-wait primitive consumes.  Debug-only
assertions and log statements (`LockDebug`, compiled out by default) are
not modelled.
-/

/-- The three states of the `FlagLock` futex word (`enum Flag`). -/
inductive FlagLock.Flag where
  | Unlocked
  | Locked
  | LockedWithWaiters
deriving DecidableEq, Repr

/-- Modelled from the spec: the distinguished construction value of the
timeout cursor that means "block forever"; the cursor holding it never
reports exhaustion.  The timeout type itself lives outside this header. -/
def UnlimitedTimeout : Nat := 2 ^ 32 - 1

/-- Modelled from the spec: the timeout/deadline cursor, an external
mutable "time remaining" quantity (comparable to zero) consumed by the
word-wait primitive.  Only the `remaining` field is consulted by this
header. -/
structure Timeout where
  remaining : Nat
deriving DecidableEq, Repr

/-- Modelled from the spec: the word-wait primitive decrements the
cursor by the time consumed while blocked; an unlimited cursor is never
decremented and so never reports exhaustion.  Natural subtraction
saturates at zero exactly like the saturating decrement of the source
cursor. -/
def Timeout.elapse (t : Timeout) (ticks : Nat) : Timeout :=
  if t.remaining = UnlimitedTimeout then t else ⟨t.remaining - ticks⟩

/-- One loop iteration's worth of oracle data for `FlagLock::try_lock`:
optional interfering overwrites of the lock word just before each of the
two compare-and-set operations in the loop body, and the ticks consumed
if the `flag.wait` call runs in that iteration. -/
structure EnvStep where
  preUpgrade : Option FlagLock.Flag
  waitTicks : Nat
  preAcquire : Option FlagLock.Flag
deriving DecidableEq, Repr

/-- Observable outcome of one `FlagLock::try_lock` call: the returned
boolean, the final value of the lock word, the final timeout cursor, the
number of calls made into the blocking word-wait primitive, and the
number of successful stores to the lock word. -/
structure TLResult where
  success : Bool
  flag : FlagLock.Flag
  timeout : Timeout
  waits : Nat
  writes : Nat
deriving DecidableEq, Repr

/-- One execution of the retry-loop body of `FlagLock::try_lock`, for
the oracle entry `step`.  `flag` is the current value of the lock word
and `old` the local variable `old` (which C++ `compare_exchange_strong`
overwrites with the observed value on failure).  `Sum.inl` is the
`return true` exit; `Sum.inr` carries the state the next iteration
starts from (the word's value doubles as the next `old`, since a failed
acquire compare-and-set stores the observed value in `old`). -/
def tryLockBody (flag old : FlagLock.Flag) (t : Timeout) (waits writes : Nat)
    (step : EnvStep) : TLResult ⊕ (FlagLock.Flag × Timeout × Nat × Nat) :=
  let flag1 := step.preUpgrade.getD flag
  -- if (old != LockedWithWaiters) flag.compare_exchange_strong(old, LockedWithWaiters);
  let upg : FlagLock.Flag × FlagLock.Flag × Nat :=
    if old ≠ FlagLock.Flag.LockedWithWaiters then
      if flag1 = old then (FlagLock.Flag.LockedWithWaiters, old, writes + 1)
      else (flag1, flag1, writes)
    else (flag1, old, writes)
  let flag2 := upg.1
  let old2 := upg.2.1
  let writes2 := upg.2.2
  -- if (old != Unlocked) flag.wait(timeout, old);
  let t2 := if old2 ≠ FlagLock.Flag.Unlocked then t.elapse step.waitTicks else t
  let waits2 := if old2 ≠ FlagLock.Flag.Unlocked then waits + 1 else waits
  -- old = Unlocked; if (flag.compare_exchange_strong(old, LockedWithWaiters)) return true;
  let flag3 := step.preAcquire.getD flag2
  if flag3 = FlagLock.Flag.Unlocked then
    Sum.inl ⟨true, FlagLock.Flag.LockedWithWaiters, t2, waits2, writes2 + 1⟩
  else
    Sum.inr (flag3, t2, waits2, writes2)

/-- The `while (timeout->remaining > 0)` retry loop of
`FlagLock::try_lock`: run the body once per oracle entry while the
cursor is not exhausted.  `none` means the oracle trace ended while the
loop was still running. -/
def tryLockLoop : FlagLock.Flag → FlagLock.Flag → Timeout → Nat → Nat → List EnvStep → Option TLResult
  | flag, old, t, waits, writes, env =>
    if t.remaining > 0 then
      match env with
      | [] => none
      | step :: rest =>
        match tryLockBody flag old t waits writes step with
        | Sum.inl r => some r
        | Sum.inr (flag3, t2, waits2, writes2) => tryLockLoop flag3 flag3 t2 waits2 writes2 rest
    else
      some ⟨false, flag, t, waits, writes⟩

/-- `FlagLock::try_lock(Timeout *timeout)`.  The fast path first
attempts a single compare-and-set of the word from `Unlocked` to
`Locked`; on failure the local `old` holds the observed value and the
retry loop runs. -/
def FlagLock.try_lock (flag : FlagLock.Flag) (t : Timeout) (env : List EnvStep) : Option TLResult :=
  if flag = FlagLock.Flag.Unlocked then some ⟨true, FlagLock.Flag.Locked, t, 0, 1⟩
  else tryLockLoop flag flag t 0 0 env

/-- `FlagLock::try_lock()`: `Timeout t{0}; return try_lock(&t);`. -/
def FlagLock.try_lockNB (flag : FlagLock.Flag) (env : List EnvStep) : Option TLResult :=
  FlagLock.try_lock flag ⟨0⟩ env

/-- `FlagLock::lock()`: `Timeout t{UnlimitedTimeout}; try_lock(&t);`. -/
def FlagLock.lockCall (flag : FlagLock.Flag) (env : List EnvStep) : Option TLResult :=
  FlagLock.try_lock flag ⟨UnlimitedTimeout⟩ env

/-- Observable outcome of `FlagLock::unlock`: the previous value read by
the atomic exchange, the value the word is left holding, and whether a
`notify_all` wake was issued. -/
structure UnlockResult where
  oldValue : FlagLock.Flag
  flag : FlagLock.Flag
  wake : Bool
deriving DecidableEq, Repr

/-- `FlagLock::unlock()`: `Flag old = flag.exchange(Unlocked); if (old ==
LockedWithWaiters) flag.notify_all();` (the debug-only double-unlock
assertion is compiled out). -/
def FlagLock.unlock (v : FlagLock.Flag) : UnlockResult :=
  ⟨v, FlagLock.Flag.Unlocked, decide (v = FlagLock.Flag.LockedWithWaiters)⟩

/-- The two `uint32_t` counters of a `TicketLock`, as naturals kept
below `2^32` by the operations. -/
structure TicketState where
  current : Nat
  next : Nat
deriving DecidableEq, Repr

/-- `uint32_t ticket = next++;` of `TicketLock::lock`: the fetched value
is the caller's ticket and the stored counter wraps modulo `2^32`. -/
def TicketLock.takeTicket (s : TicketState) : Nat × TicketState :=
  (s.next, ⟨s.current, (s.next + 1) % 2 ^ 32⟩)

/-- The `do { ... } while (true)` loop of `TicketLock::lock`.  The
environment lists the successive values read from `current` (as changed
by other threads' unlocks); the result, when the loop exits within the
trace, is the list of snapshot values passed as the expected value to
the un-timed `current.wait(currentSnapshot)` calls, in order. -/
def TicketLock.lockLoop (ticket : Nat) : List Nat → Option (List Nat)
  | [] => none
  | c :: rest =>
    if c = ticket then some []
    else (TicketLock.lockLoop ticket rest).map (fun tr => c :: tr)

/-- `TicketLock::unlock()`: `uint32_t currentSnapshot = ++current; if
(next > currentSnapshot) current.notify_all();`.  Returns the new state
and whether the wake was issued; the pre-increment wraps modulo
`2^32`. -/
def TicketLock.unlock (s : TicketState) : TicketState × Bool :=
  let c := (s.current + 1) % 2 ^ 32
  (⟨c, s.next⟩, decide (s.next > c))

/-- The two operations whose effect on the ticket counters we replay. -/
inductive TOp where
  | lock
  | unlock
deriving DecidableEq, Repr

/-- Effect of one call on the counter pair: `lock()` performs the
fetch-and-increment of `next`, `unlock()` the increment of `current`. -/
def TicketLock.step (s : TicketState) : TOp → TicketState
  | TOp.lock => (TicketLock.takeTicket s).2
  | TOp.unlock => (TicketLock.unlock s).1

/-- Counter state after a sequence of calls, both counters starting at
zero. -/
def TicketLock.run (ops : List TOp) : TicketState :=
  List.foldl TicketLock.step ⟨0, 0⟩ ops

/-- Number of `lock()` calls in a sequence. -/
def countLocks : List TOp → Nat
  | [] => 0
  | TOp.lock :: r => countLocks r + 1
  | TOp.unlock :: r => countLocks r

/-- Number of `unlock()` calls in a sequence. -/
def countUnlocks : List TOp → Nat
  | [] => 0
  | TOp.lock :: r => countUnlocks r
  | TOp.unlock :: r => countUnlocks r + 1

/-- State of a `LockGuard`: the `wrappedLock` pointer (an abstract lock
address, `none` for `nullptr`) and the `isOwned` flag. -/
structure LockGuard where
  wrappedLock : Option Nat
  isOwned : Bool
deriving DecidableEq, Repr

/-- Calls a guard makes into its underlying lock. -/
inductive LockAction where
  | lockCall (target : Nat)
  | unlockCall (target : Option Nat)
deriving DecidableEq, Repr

/-- The acquiring constructor `LockGuard(Lock &lock)`: stores the lock's
address, sets `isOwned`, and calls `wrappedLock->lock()`. -/
def LockGuard.mkAcquire (lockAddr : Nat) : LockGuard × List LockAction :=
  (⟨some lockAddr, true⟩, [LockAction.lockCall lockAddr])

/-- The move constructor `LockGuard(LockGuard &&guard)`: the destination
copies the source's pointer and flag; the source is left with a null
pointer and `isOwned = false`.  Returns (destination, source after the
move). -/
def LockGuard.moveFrom (g : LockGuard) : LockGuard × LockGuard :=
  (⟨g.wrappedLock, g.isOwned⟩, ⟨none, false⟩)

/-- The destructor `~LockGuard()`: calls `wrappedLock->unlock()` if and
only if `isOwned` is set. -/
def LockGuard.destruct (g : LockGuard) : List LockAction :=
  if g.isOwned then [LockAction.unlockCall g.wrappedLock] else []

/-- `NoLock::try_lock(Timeout *timeout)`: body is `return true;`.  The
embedding also returns the (untouched) cursor and the number of
word-wait invocations (zero: the body makes none). -/
def NoLock.try_lock (t : Timeout) : Bool × Timeout × Nat :=
  (true, t, 0)

/-- `NoLock::try_lock()`: `return true;`, with the word-wait invocation
count (zero). -/
def NoLock.try_lockNB : Bool × Nat :=
  (true, 0)

/-- `NoLock::lock()`: empty body; returns the word-wait invocation
count (zero). -/
def NoLock.lockCall : Unit × Nat :=
  ((), 0)

/-- `NoLock::unlock()`: empty body; returns the word-wait invocation
count (zero). -/
def NoLock.unlockCall : Unit × Nat :=
  ((), 0)

/-! Helper lemmas about the FlagLock try_lock retry loop. -/

/-- An unlimited cursor is never decremented by a wait. -/
theorem Timeout.elapse_unlimited (t : Timeout) (e : Nat)
    (h : t.remaining = UnlimitedTimeout) : t.elapse e = t := by
  rw [Timeout.elapse, if_pos h]

/-- The only `return` inside the loop body is the acquire
compare-and-set from `Unlocked`, which returns `true` and stores
`LockedWithWaiters`. -/
theorem tryLockBody_inl (flag old : FlagLock.Flag) (t : Timeout) (waits writes : Nat)
    (step : EnvStep) (r : TLResult)
    (h : tryLockBody flag old t waits writes step = Sum.inl r) :
    r.success = true ∧ r.flag = FlagLock.Flag.LockedWithWaiters := by
  unfold tryLockBody at h
  dsimp only at h
  repeat' split at h
  all_goals first
    | (injection h with h
       subst h
       exact ⟨rfl, rfl⟩)
    | cases h

/-- A loop iteration that continues either leaves the cursor alone or
elapses it by that iteration's wait ticks. -/
theorem tryLockBody_inr_timeout (flag old : FlagLock.Flag) (t : Timeout) (waits writes : Nat)
    (step : EnvStep) (f3 : FlagLock.Flag) (t2 : Timeout) (w2 wr2 : Nat)
    (h : tryLockBody flag old t waits writes step = Sum.inr (f3, t2, w2, wr2)) :
    t2 = t ∨ t2 = t.elapse step.waitTicks := by
  unfold tryLockBody at h
  dsimp only at h
  repeat' split at h
  all_goals first
    | (injection h with h
       simp only [Prod.mk.injEq] at h
       obtain ⟨-, hB, -, -⟩ := h
       subst hB
       first
         | exact Or.inl rfl
         | exact Or.inr rfl)
    | cases h

/-- The retry loop returns `false` only with an exhausted cursor. -/
theorem tryLockLoop_false_remaining (env : List EnvStep) :
    ∀ flag old t waits writes r, tryLockLoop flag old t waits writes env = some r →
      r.success = false → r.timeout.remaining = 0 := by
  induction env with
  | nil =>
    intro flag old t waits writes r h hf
    rw [tryLockLoop] at h
    by_cases ht : t.remaining > 0
    · rw [if_pos ht] at h
      exact absurd h (by simp)
    · rw [if_neg ht] at h
      obtain rfl := Option.some.inj h
      simpa using by omega
  | cons step rest ih =>
    intro flag old t waits writes r h hf
    rw [tryLockLoop] at h
    by_cases ht : t.remaining > 0
    · rw [if_pos ht] at h
      rcases hb : tryLockBody flag old t waits writes step with r' | ⟨f3, t2, w2, wr2⟩
      · rw [hb] at h
        obtain rfl := Option.some.inj h
        rw [(tryLockBody_inl _ _ _ _ _ _ _ hb).1] at hf
        cases hf
      · rw [hb] at h
        exact ih _ _ _ _ _ _ h hf
    · rw [if_neg ht] at h
      obtain rfl := Option.some.inj h
      simpa using by omega

/-- With an unlimited cursor the retry loop can only return `true`. -/
theorem tryLockLoop_unlimited (env : List EnvStep) :
    ∀ flag old t waits writes r, t.remaining = UnlimitedTimeout →
      tryLockLoop flag old t waits writes env = some r → r.success = true := by
  induction env with
  | nil =>
    intro flag old t waits writes r htu h
    rw [tryLockLoop, if_pos (by rw [htu]; decide)] at h
    exact absurd h (by simp)
  | cons step rest ih =>
    intro flag old t waits writes r htu h
    rw [tryLockLoop, if_pos (by rw [htu]; decide)] at h
    rcases hb : tryLockBody flag old t waits writes step with r' | ⟨f3, t2, w2, wr2⟩
    · rw [hb] at h
      obtain rfl := Option.some.inj h
      exact (tryLockBody_inl _ _ _ _ _ _ _ hb).1
    · rw [hb] at h
      refine ih _ _ _ _ _ _ ?_ h
      rcases tryLockBody_inr_timeout _ _ _ _ _ _ _ _ _ _ hb with h2 | h2
      · rw [h2]; exact htu
      · rw [h2, Timeout.elapse_unlimited _ _ htu]; exact htu

/-- Every successful exit from the retry loop leaves the word in the
`LockedWithWaiters` state. -/
theorem tryLockLoop_success_flag (env : List EnvStep) :
    ∀ flag old t waits writes r, tryLockLoop flag old t waits writes env = some r →
      r.success = true → r.flag = FlagLock.Flag.LockedWithWaiters := by
  induction env with
  | nil =>
    intro flag old t waits writes r h hs
    rw [tryLockLoop] at h
    by_cases ht : t.remaining > 0
    · rw [if_pos ht] at h
      exact absurd h (by simp)
    · rw [if_neg ht] at h
      obtain rfl := Option.some.inj h
      cases hs
  | cons step rest ih =>
    intro flag old t waits writes r h hs
    rw [tryLockLoop] at h
    by_cases ht : t.remaining > 0
    · rw [if_pos ht] at h
      rcases hb : tryLockBody flag old t waits writes step with r' | ⟨f3, t2, w2, wr2⟩
      · rw [hb] at h
        obtain rfl := Option.some.inj h
        exact (tryLockBody_inl _ _ _ _ _ _ _ hb).2
      · rw [hb] at h
        exact ih _ _ _ _ _ _ h hs
    · rw [if_neg ht] at h
      obtain rfl := Option.some.inj h
      cases hs

/-! Helper lemmas about the ticket counters. -/

/-- Folding calls over the counter pair adds the per-operation call
counts, modulo the counter width. -/
theorem ticketFold_eq (ops : List TOp) :
    ∀ c n : Nat, List.foldl TicketLock.step ⟨c % 2 ^ 32, n % 2 ^ 32⟩ ops =
      ⟨(c + countUnlocks ops) % 2 ^ 32, (n + countLocks ops) % 2 ^ 32⟩ := by
  induction ops with
  | nil => intro c n; simp [countLocks, countUnlocks]
  | cons op rest ih =>
    intro c n
    rw [List.foldl_cons]
    cases op
    · show List.foldl TicketLock.step ⟨c % 2 ^ 32, (n % 2 ^ 32 + 1) % 2 ^ 32⟩ rest = _
      rw [Nat.mod_add_mod, ih c (n + 1)]
      show _ = TicketState.mk ((c + countUnlocks rest) % 2 ^ 32)
        ((n + (countLocks rest + 1)) % 2 ^ 32)
      have hx : n + 1 + countLocks rest = n + (countLocks rest + 1) := by omega
      rw [hx]
    · show List.foldl TicketLock.step ⟨(c % 2 ^ 32 + 1) % 2 ^ 32, n % 2 ^ 32⟩ rest = _
      rw [Nat.mod_add_mod, ih (c + 1) n]
      show _ = TicketState.mk ((c + (countUnlocks rest + 1)) % 2 ^ 32)
        ((n + countLocks rest) % 2 ^ 32)
      have hx : c + 1 + countUnlocks rest = c + (countUnlocks rest + 1) := by omega
      rw [hx]

/-- The counters after a call sequence are the call counts modulo the
counter width. -/
theorem ticketRun_eq (ops : List TOp) :
    TicketLock.run ops = ⟨countUnlocks ops % 2 ^ 32, countLocks ops % 2 ^ 32⟩ := by
  have h := ticketFold_eq ops 0 0
  simpa [TicketLock.run] using h

/-- A sequence's lock count bounds every prefix's lock count. -/
theorem countLocks_take_le (ops : List TOp) :
    ∀ n, countLocks (List.take n ops) ≤ countLocks ops := by
  induction ops with
  | nil => intro n; rw [List.take_nil]
  | cons op rest ih =>
    intro n
    cases n with
    | zero => rw [List.take_zero]; exact Nat.zero_le _
    | succ m =>
      rw [List.take_succ_cons]
      cases op
      · exact Nat.succ_le_succ (ih m)
      · exact ih m

theorem countLocks_append (a b : List TOp) :
    countLocks (a ++ b) = countLocks a + countLocks b := by
  induction a with
  | nil => simp [countLocks]
  | cons op rest ih =>
    cases op
    · rw [List.cons_append]
      show countLocks (rest ++ b) + 1 = countLocks rest + 1 + countLocks b
      rw [ih]
      omega
    · rw [List.cons_append]
      show countLocks (rest ++ b) = countLocks rest + countLocks b
      exact ih

theorem countUnlocks_append (a b : List TOp) :
    countUnlocks (a ++ b) = countUnlocks a + countUnlocks b := by
  induction a with
  | nil => simp [countUnlocks]
  | cons op rest ih =>
    cases op
    · rw [List.cons_append]
      show countUnlocks (rest ++ b) = countUnlocks rest + countUnlocks b
      exact ih
    · rw [List.cons_append]
      show countUnlocks (rest ++ b) + 1 = countUnlocks rest + 1 + countUnlocks b
      rw [ih]
      omega

theorem countLocks_replicate (k : Nat) :
    countLocks (List.replicate k TOp.lock) = k := by
  induction k with
  | zero => rfl
  | succ m ih => rw [List.replicate_succ]; simp only [countLocks, ih]

theorem countUnlocks_replicate (k : Nat) :
    countUnlocks (List.replicate k TOp.lock) = 0 := by
  induction k with
  | zero => rfl
  | succ m ih => rw [List.replicate_succ]; simp only [countUnlocks, ih]

/-! Claim theorems. -/

/-- C1 (counterexample): the invariant `next >= current` does not hold
at every state reachable by an arbitrary sequence of `lock()`/`unlock()`
calls on 32-bit counters: a single `unlock()` yields `current = 1`,
`next = 0`, and even a balanced sequence violates it once the `next`
counter wraps: `2^32` calls to `lock()` followed by one `unlock()`
yield `next = 0 < current = 1`. -/
theorem ticketLock_invariant_counterexample :
    ¬ ((TicketLock.run [TOp.unlock]).next ≥ (TicketLock.run [TOp.unlock]).current) ∧
    ¬ ((TicketLock.run (List.replicate (2 ^ 32) TOp.lock ++ [TOp.unlock])).next ≥
        (TicketLock.run (List.replicate (2 ^ 32) TOp.lock ++ [TOp.unlock])).current) := by
  constructor
  · decide
  · have hl : countLocks (List.replicate (2 ^ 32) TOp.lock ++ [TOp.unlock]) = 2 ^ 32 := by
      rw [countLocks_append, countLocks_replicate]
      rfl
    have hu : countUnlocks (List.replicate (2 ^ 32) TOp.lock ++ [TOp.unlock]) = 1 := by
      rw [countUnlocks_append, countUnlocks_replicate]
      rfl
    rw [ticketRun_eq, hl, hu]
    show ¬ (2 ^ 32 % 2 ^ 32 ≥ 1 % 2 ^ 32)
    norm_num [Nat.mod_self]

/-- C1 (amended): along any call sequence in which no prefix contains
more `unlock()` than `lock()` calls and fewer than `2^32` `lock()`
calls occur in total, every reachable state satisfies
`next >= current`. -/
theorem ticketLock_invariant (ops : List TOp)
    (hbal : ∀ n, n < ops.length + 1 →
      countUnlocks (List.take n ops) ≤ countLocks (List.take n ops))
    (hlt : countLocks ops < 2 ^ 32) :
    ∀ n, n < ops.length + 1 →
      (TicketLock.run (List.take n ops)).next ≥ (TicketLock.run (List.take n ops)).current := by
  intro n hn
  rw [ticketRun_eq]
  show countUnlocks (List.take n ops) % 2 ^ 32 ≤ countLocks (List.take n ops) % 2 ^ 32
  have h1 : countLocks (List.take n ops) < 2 ^ 32 :=
    Nat.lt_of_le_of_lt (countLocks_take_le ops n) hlt
  have h2 : countUnlocks (List.take n ops) ≤ countLocks (List.take n ops) := hbal n hn
  rw [Nat.mod_eq_of_lt h1, Nat.mod_eq_of_lt (Nat.lt_of_le_of_lt h2 h1)]
  exact h2

/-- Witness for the amended C1 at the sequence `[lock, unlock]`. -/
theorem ticketLock_invariant_witness :
    (∀ n, n < 3 → countUnlocks (List.take n [TOp.lock, TOp.unlock]) ≤
      countLocks (List.take n [TOp.lock, TOp.unlock])) ∧
    countLocks [TOp.lock, TOp.unlock] < 2 ^ 32 ∧
    (∀ n, n < 3 → (TicketLock.run (List.take n [TOp.lock, TOp.unlock])).next ≥
      (TicketLock.run (List.take n [TOp.lock, TOp.unlock])).current) :=
  ⟨by decide, by decide, ticketLock_invariant [TOp.lock, TOp.unlock] (by decide) (by decide)⟩

/-- C2: `FlagLock::try_lock(timeout)` returns `false` only when the
timeout cursor is exhausted (its remaining budget is not greater than
zero at the point of return); `FlagLock::lock()`, which runs `try_lock`
with an unlimited-budget cursor whose remaining budget never reaches
zero, cannot observably fail. -/
theorem flagLock_timeout_exhaustion :
    (∀ flag t env r, FlagLock.try_lock flag t env = some r → r.success = false →
      ¬ r.timeout.remaining > 0) ∧
    (∀ flag env r, FlagLock.lockCall flag env = some r → r.success = true) := by
  constructor
  · intro flag t env r h hf
    rw [FlagLock.try_lock] at h
    split at h
    · obtain rfl := Option.some.inj h
      cases hf
    · have h0 := tryLockLoop_false_remaining env _ _ _ _ _ _ h hf
      omega
  · intro flag env r h
    rw [FlagLock.lockCall, FlagLock.try_lock] at h
    split at h
    · obtain rfl := Option.some.inj h
      rfl
    · exact tryLockLoop_unlimited env _ _ _ _ _ _ rfl h

/-- Witness for C2: a probe with budget 1 on a locked word times out
with the cursor at zero; a `lock()` on a locked word that is unlocked
while waiting succeeds. -/
theorem flagLock_timeout_exhaustion_witness :
    (FlagLock.try_lock FlagLock.Flag.Locked ⟨1⟩ [⟨none, 1, none⟩] =
      some ⟨false, FlagLock.Flag.LockedWithWaiters, ⟨0⟩, 1, 1⟩) ∧
    ((⟨false, FlagLock.Flag.LockedWithWaiters, ⟨0⟩, 1, 1⟩ : TLResult).success = false) ∧
    (¬ (⟨false, FlagLock.Flag.LockedWithWaiters, ⟨0⟩, 1, 1⟩ : TLResult).timeout.remaining > 0) ∧
    (FlagLock.lockCall FlagLock.Flag.LockedWithWaiters [⟨none, 5, some FlagLock.Flag.Unlocked⟩] =
      some ⟨true, FlagLock.Flag.LockedWithWaiters, ⟨UnlimitedTimeout⟩, 1, 1⟩) ∧
    ((⟨true, FlagLock.Flag.LockedWithWaiters, ⟨UnlimitedTimeout⟩, 1, 1⟩ : TLResult).success = true) :=
  ⟨by decide, by decide,
   flagLock_timeout_exhaustion.1 FlagLock.Flag.Locked ⟨1⟩ [⟨none, 1, none⟩]
     ⟨false, FlagLock.Flag.LockedWithWaiters, ⟨0⟩, 1, 1⟩ (by decide) (by decide),
   by decide,
   flagLock_timeout_exhaustion.2 FlagLock.Flag.LockedWithWaiters
     [⟨none, 5, some FlagLock.Flag.Unlocked⟩]
     ⟨true, FlagLock.Flag.LockedWithWaiters, ⟨UnlimitedTimeout⟩, 1, 1⟩ (by decide)⟩

/-- C4: when the word is `Unlocked` at entry, the single fast-path
compare-and-set moves it to `Locked` (not `LockedWithWaiters`) and the
call returns `true` with no call into the blocking primitive (`waits =
0`) and exactly one store (`writes = 1`); every success obtained inside
the retry loop instead leaves the word `LockedWithWaiters`. -/
theorem flagLock_acquire_transitions :
    (∀ t env, FlagLock.try_lock FlagLock.Flag.Unlocked t env =
      some ⟨true, FlagLock.Flag.Locked, t, 0, 1⟩) ∧
    (∀ flag t env r, flag ≠ FlagLock.Flag.Unlocked →
      FlagLock.try_lock flag t env = some r → r.success = true →
      r.flag = FlagLock.Flag.LockedWithWaiters) := by
  constructor
  · intro t env
    rw [FlagLock.try_lock, if_pos rfl]
  · intro flag t env r hne h hs
    rw [FlagLock.try_lock, if_neg hne] at h
    exact tryLockLoop_success_flag env _ _ _ _ _ _ h hs

/-- Witness for C4: a contended acquisition that succeeds inside the
loop ends with the word `LockedWithWaiters`. -/
theorem flagLock_acquire_transitions_witness :
    (FlagLock.Flag.Locked ≠ FlagLock.Flag.Unlocked) ∧
    (FlagLock.try_lock FlagLock.Flag.Locked ⟨1⟩ [⟨none, 0, some FlagLock.Flag.Unlocked⟩] =
      some ⟨true, FlagLock.Flag.LockedWithWaiters, ⟨1⟩, 1, 2⟩) ∧
    ((⟨true, FlagLock.Flag.LockedWithWaiters, ⟨1⟩, 1, 2⟩ : TLResult).success = true) ∧
    ((⟨true, FlagLock.Flag.LockedWithWaiters, ⟨1⟩, 1, 2⟩ : TLResult).flag =
      FlagLock.Flag.LockedWithWaiters) :=
  ⟨by decide, by decide, by decide,
   flagLock_acquire_transitions.2 FlagLock.Flag.Locked ⟨1⟩
     [⟨none, 0, some FlagLock.Flag.Unlocked⟩]
     ⟨true, FlagLock.Flag.LockedWithWaiters, ⟨1⟩, 1, 2⟩
     (by decide) (by decide) (by decide)⟩

/-- C5: `FlagLock::unlock()` exchanges the word to `Unlocked`, reading
the previous value; it wakes the waiters if and only if that previous
value was `LockedWithWaiters`, and in particular issues no wake when it
was plain `Locked`. -/
theorem flagLock_unlock_wake :
    ∀ v, (FlagLock.unlock v).oldValue = v ∧
      (FlagLock.unlock v).flag = FlagLock.Flag.Unlocked ∧
      ((FlagLock.unlock v).wake = true ↔ v = FlagLock.Flag.LockedWithWaiters) ∧
      (FlagLock.unlock FlagLock.Flag.Locked).wake = false := by
  intro v
  refine ⟨rfl, rfl, ?_, rfl⟩
  cases v <;> simp [FlagLock.unlock]

/-- C6: `TicketLock::lock()` fetches `next` as the caller's ticket and
increments it (mod `2^32`); the loop then returns exactly when the read
of `current` equals the ticket, and otherwise waits on `current` with
the just-read snapshot as the expected value, once per non-matching
read, until `current` equals the ticket. -/
theorem ticketLock_lock_spec :
    (∀ s, TicketLock.takeTicket s = (s.next, ⟨s.current, (s.next + 1) % 2 ^ 32⟩)) ∧
    (∀ ticket env, TicketLock.lockLoop ticket env =
      if ticket ∈ env then some (List.takeWhile (fun c => c != ticket) env) else none) := by
  constructor
  · intro s
    rfl
  · intro ticket env
    induction env with
    | nil => simp [TicketLock.lockLoop]
    | cons c rest ih =>
      rw [TicketLock.lockLoop]
      by_cases hc : c = ticket
      · subst hc
        rw [if_pos rfl, if_pos (List.mem_cons_self c rest)]
        simp [List.takeWhile_cons]
      · rw [if_neg hc, ih]
        by_cases hm : ticket ∈ rest
        · rw [if_pos hm, if_pos (List.mem_cons_of_mem c hm)]
          simp [List.takeWhile_cons, hc]
        · rw [if_neg hm, if_neg (by simp [List.mem_cons, hm, Ne.symm hc])]
          rfl

/-- C7: `TicketLock::unlock()` increments `current` (mod `2^32`) and
reads the new value; it wakes the waiters on `current` if and only if
`next` is greater than that new value. -/
theorem ticketLock_unlock_spec :
    ∀ s, (TicketLock.unlock s).1 = ⟨(s.current + 1) % 2 ^ 32, s.next⟩ ∧
      ((TicketLock.unlock s).2 = true ↔ s.next > (s.current + 1) % 2 ^ 32) := by
  intro s
  exact ⟨rfl, by simp [TicketLock.unlock]⟩

/-- C8: the no-argument `try_lock()` runs `try_lock` with a zero-budget
cursor: it returns `true` and stores `Locked` when the word is
`Unlocked`, returns `false` otherwise, and never calls the blocking
primitive (`waits = 0`). -/
theorem flagLock_try_lock_nonblocking :
    ∀ flag env, FlagLock.try_lockNB flag env =
      some ⟨decide (flag = FlagLock.Flag.Unlocked),
        if flag = FlagLock.Flag.Unlocked then FlagLock.Flag.Locked else flag,
        ⟨0⟩, 0, if flag = FlagLock.Flag.Unlocked then 1 else 0⟩ := by
  intro flag env
  cases flag <;> cases env <;> rfl

/-- C9: every `NoLock` operation succeeds immediately: `try_lock`
returns `true` for every timeout without touching the cursor, the
no-argument `try_lock` returns `true`, `lock()` returns immediately and
`unlock()` does nothing; no operation calls the blocking primitive
(wait count 0 in every result). -/
theorem noLock_always_succeeds :
    (∀ t, NoLock.try_lock t = (true, t, 0)) ∧
    NoLock.try_lockNB = (true, 0) ∧
    NoLock.lockCall = ((), 0) ∧
    NoLock.unlockCall = ((), 0) :=
  ⟨fun _ => rfl, rfl, rfl, rfl⟩

/-- C10: a failed zero-budget probe on a word that is not `Unlocked`
returns `false` having performed no store at all (`writes = 0`): the
word is left exactly as it was, with no upgrade to
`LockedWithWaiters`. -/
theorem flagLock_failed_probe_frame :
    ∀ flag env, flag ≠ FlagLock.Flag.Unlocked →
      FlagLock.try_lockNB flag env = some ⟨false, flag, ⟨0⟩, 0, 0⟩ := by
  intro flag env hne
  cases flag
  · exact absurd rfl hne
  · cases env <;> rfl
  · cases env <;> rfl

/-- Witness for C10: probing a `Locked` word with zero budget, under an
oracle that would offer the word as `Unlocked` inside the loop, still
returns `false` with no store: the loop is never entered. -/
theorem flagLock_failed_probe_frame_witness :
    (FlagLock.Flag.Locked ≠ FlagLock.Flag.Unlocked) ∧
    FlagLock.try_lockNB FlagLock.Flag.Locked
        [⟨some FlagLock.Flag.Unlocked, 3, some FlagLock.Flag.Unlocked⟩] =
      some ⟨false, FlagLock.Flag.Locked, ⟨0⟩, 0, 0⟩ :=
  ⟨by decide, flagLock_failed_probe_frame FlagLock.Flag.Locked
    [⟨some FlagLock.Flag.Unlocked, 3, some FlagLock.Flag.Unlocked⟩] (by decide)⟩

/-- C3: the acquiring constructor of `LockGuard` stores the lock
reference, sets the ownership flag and calls `lock()`; the move
constructor copies reference and flag to the destination and clears
both on the source; the destructor calls `unlock()` if and only if the
flag is set.  Consequently, after a move the source's destruction
unlocks nothing and the destination's destruction unlocks exactly as
the un-moved guard would have: once when the source owned the lock. -/
theorem lockGuard_ownership :
    (∀ a, LockGuard.mkAcquire a = (⟨some a, true⟩, [LockAction.lockCall a])) ∧
    (∀ g, LockGuard.moveFrom g = (⟨g.wrappedLock, g.isOwned⟩, ⟨none, false⟩)) ∧
    (∀ g, LockGuard.destruct g =
      if g.isOwned then [LockAction.unlockCall g.wrappedLock] else []) ∧
    (∀ g, LockGuard.destruct (LockGuard.moveFrom g).2 = []) ∧
    (∀ g, LockGuard.destruct (LockGuard.moveFrom g).1 =
      if g.isOwned then [LockAction.unlockCall g.wrappedLock] else []) :=
  ⟨fun _ => rfl, fun _ => rfl, fun _ => rfl, fun _ => rfl, fun _ => rfl⟩
